import Mathlib

/-!
Verification of the MoltScheduler finalization engine (src/ui/app.py).

The Python source is shallowly embedded: strings are Lean `String`s (or
`List Char` where character-level surgery is performed, as in the rolling
reflections log), Python `dict`s that are iterated in insertion order are
association lists, machine integers are `Nat` (all counters in the source
are non-negative), and the file-backed resources handled by one `finalize`
invocation (Draft, State, reflections log) are passed in and returned
explicitly.
-/

namespace MoltScheduler

/-! ## Python string primitives

Python `str.strip` / `str.lstrip` with no arguments remove whitespace from
the ends of a string.  They are modelled on `List Char`, with `String`
wrappers used where the source manipulates whole strings.
-/

/-- Python `s.lstrip()` on a list of characters. -/
def lstripL (l : List Char) : List Char := l.dropWhile Char.isWhitespace

/-- Python `s.rstrip()` on a list of characters. -/
def rstripL (l : List Char) : List Char :=
  (l.reverse.dropWhile Char.isWhitespace).reverse

/-- Python `s.strip()` on a list of characters. -/
def stripL (l : List Char) : List Char := rstripL (lstripL l)

/-- Python `s.strip()` on a `String`. -/
def pyStrip (s : String) : String := (stripL s.toList).asString

/-- Python `len(s.strip())`: the length of the whitespace-trimmed string. -/
def strippedLen (s : String) : Nat := (stripL s.toList).length

/-- Python `s.lower()`, character by character. -/
def pyLower (s : String) : String := (s.toList.map Char.toLower).asString

/-- Python `s.upper()`, character by character. -/
def pyUpper (s : String) : String := (s.toList.map Char.toUpper).asString

/-- Python `sep.join(parts)`. -/
def joinWith (sep : String) : List String → String
  | [] => ""
  | [x] => x
  | x :: xs => x ++ sep ++ joinWith sep xs

/-! ## Data model

`Rating` and `Mode` are the closed enumerations the source stores as the
strings "good"/"fair"/"bad" and "commit"/"recovery".
-/

/-- A day's qualitative rating, stored by the source as "good"/"fair"/"bad". -/
inductive Rating where
  | good
  | fair
  | bad
deriving DecidableEq

/-- The check-in mode, stored by the source as "commit"/"recovery". -/
inductive Mode where
  | commit
  | recovery
deriving DecidableEq

/-- The string a `Rating` is serialized as. -/
def ratingStr : Rating → String
  | .good => "good"
  | .fair => "fair"
  | .bad => "bad"

/-- The string a `Mode` is serialized as. -/
def modeStr : Mode → String
  | .commit => "commit"
  | .recovery => "recovery"

/-- One entry of `Draft.items`: `{label, done, comment}` as written by
`api_checkin_draft`.  `label` is optional because `api_finalize` reads it
with `v.get("label", "(item)")`. -/
structure Item where
  label : Option String
  done : Bool
  comment : String
deriving DecidableEq

/-- The check-in draft record `planner/latest/checkin_draft.json`.
Fields read with `draft.get(...)` may be absent, hence the `Option`s; a
missing or empty draft file is `⟨none, none, [], "", none⟩`.  `items` is a
Python dict iterated in insertion order, modelled as an association list. -/
structure Draft where
  day : Option String
  mode : Option String
  items : List (String × Item)
  reflection : String
  updatedAt : Option String
deriving DecidableEq

/-- One element of `State.history` as appended by `api_finalize`. -/
structure HistoryEntry where
  day : String
  rating : Rating
  mode : Mode
  streakCounted : Bool
  doneCount : Nat
  total : Nat
deriving DecidableEq

/-- The persisted `planner/state.json` as read/written by `api_finalize`. -/
structure State where
  streak : Nat
  lastStreakDate : Option String
  lastRating : Option Rating
  lastMode : Option Mode
  lastSummary : Option String
  lastFinalizedDate : Option String
  history : List HistoryEntry
deriving DecidableEq

/-- The JSON object returned by `api_finalize`: on the no-draft path
`{"ok": False, "reason": "no-draft-for-today", "today": today}` and on
success `{"ok": True, "day": today, "rating": rating, "streak": streak}`. -/
structure FinalizeResult where
  ok : Bool
  reason : Option String
  day : String
  rating : Option Rating
  streakOut : Option Nat
deriving DecidableEq

/-- The result of one `api_finalize` invocation together with the final
contents of the three durable resources it may write. -/
structure FinalizeOut where
  result : FinalizeResult
  state : State
  draft : Draft
  log : List Char
deriving DecidableEq

/-! ## Pure engines -/

/-- `_compute_rating(done_count, total_items, reflection, any_time)` from
src/ui/app.py lines 237-245, with `total_items // 2` as `Nat` division and
`len((reflection or "").strip())` as `strippedLen`. -/
def compute_rating (done_count total_items : Nat) (reflection : String)
    (any_time : Bool) : Rating :=
  if done_count ≥ max 1 (total_items / 2) ∨ done_count ≥ 2 ∨
      (any_time = true ∧ done_count ≥ 1) then .good
  else if done_count ≥ 1 ∨ strippedLen reflection ≥ 30 then .fair
  else .bad

/-- `_counts_for_streak(done_count, reflection, plan_changed)` from
src/ui/app.py lines 248-251. -/
def counts_for_streak (done_count : Nat) (reflection : String)
    (plan_changed : Bool) : Bool :=
  decide (done_count ≥ 1) || decide (strippedLen reflection ≥ 30) || plan_changed

/-- The recovery-mode rating override inlined in `api_finalize`
(src/ui/app.py lines 601-603): "recovery mode is more forgiving". -/
def apply_recovery_rating (mode : Mode) (rating : Rating) (done_count : Nat)
    (reflection : String) : Rating :=
  if mode = .recovery ∧ rating = .bad ∧
      (done_count ≥ 1 ∨ strippedLen reflection ≥ 30) then .fair
  else rating

/-- The streak-eligibility computation of `api_finalize` (src/ui/app.py
lines 604-606), including the recovery-mode relaxation. -/
def finalize_counts (mode : Mode) (done_count : Nat) (reflection : String)
    (plan_changed : Bool) : Bool :=
  let counts := counts_for_streak done_count reflection plan_changed
  if mode = .recovery then counts || decide (strippedLen reflection ≥ 30)
  else counts

/-- The streak advance inlined in `api_finalize` (src/ui/app.py lines
612-616): increment only when the day counts and `lastStreakDate` is not
already today. -/
def advance_streak (counts : Bool) (today : String) (streak : Nat)
    (lastStreakDate : Option String) : Nat × Option String :=
  if counts then
    if lastStreakDate ≠ some today then (streak + 1, some today)
    else (streak, lastStreakDate)
  else (streak, lastStreakDate)

/-- Mode normalization of `api_finalize` (src/ui/app.py lines 581-583):
`(draft.get("mode", "commit") or "commit").strip().lower()`, then any value
outside {"commit", "recovery"} falls back to "commit". -/
def normalizeMode (m : Option String) : Mode :=
  let raw := match m with
    | none => "commit"
    | some s => if s = "" then "commit" else s
  let low := pyLower (pyStrip raw)
  let norm := if low = "commit" ∨ low = "recovery" then low else "commit"
  if norm = "recovery" then .recovery else .commit

/-- The plan-changed heuristic of `api_finalize` (src/ui/app.py lines
597-598): `plan_prev_path.exists() and _read_text(plan_prev_path).strip() != ""`.
The input is the content of `plan_prev.md` when that file exists. -/
def planChangedOf (planPrev : Option String) : Bool :=
  match planPrev with
  | none => false
  | some t => decide (pyStrip t ≠ "")

/-- Specification-worded plan-change predicate, for comparison with
`planChangedOf`.  Modelled from the spec: "true iff a previous-plan
snapshot exists and is non-empty/differs from current", read as: the
snapshot exists, is non-empty after trimming, and differs from the current
plan document. -/
def specPlanChanged (planPrev : Option String) (currentPlan : String) : Bool :=
  match planPrev with
  | none => false
  | some t => decide (pyStrip t ≠ "") && decide (t ≠ currentPlan)

/-- `_summarize_paragraph(day, rating, done_items, minutes_total, reflection)`
from src/ui/app.py lines 254-272. -/
def summarize_paragraph (day : String) (rating : Rating)
    (done_items : List String) (minutes_total : Nat) (reflection : String) :
    String :=
  let lead := match rating with
    | .good => "Good"
    | .fair => "Fair"
    | .bad => "Bad"
  let doneParts : List String :=
    if done_items.isEmpty then []
    else
      let top := done_items.take 3
      let more := if done_items.length ≤ 3 then ""
        else " (+" ++ toString (done_items.length - 3) ++ " more)"
      ["done: " ++ joinWith ", " top ++ more]
  let minParts : List String :=
    if minutes_total > 0 then ["logged ~" ++ toString minutes_total ++ " min"]
    else []
  let reflParts : List String :=
    if stripL reflection.toList ≠ [] then ["reflection recorded"] else []
  let parts := doneParts ++ minParts ++ reflParts
  let body := if parts.isEmpty then "no notable progress logged"
    else joinWith "; " parts
  let advice := match rating with
    | .good => "Keep the momentum; protect one deep block early tomorrow."
    | .fair => "Aim for one deeper block next; reduce context switching."
    | .bad => "Reset: pick one small win + one deep block tomorrow."
  "[" ++ lead ++ "] " ++ day ++ ": " ++ body ++ ". " ++ advice

/-! ## History maintenance -/

/-- One step of the dict-based de-duplication `by_day[e.get("day")] = e`
(src/ui/app.py lines 624-626): a Python dict keeps the position of the
first insertion of a key and overwrites its value. -/
def upsert_by_day (acc : List HistoryEntry) (e : HistoryEntry) :
    List HistoryEntry :=
  if acc.any (fun x => x.day = e.day) then
    acc.map (fun x => if x.day = e.day then e else x)
  else acc ++ [e]

/-- `by_day = {}; for e in hist: by_day[e.get("day")] = e; list(by_day.values())`
(src/ui/app.py lines 624-627). -/
def dedup_by_day (h : List HistoryEntry) : List HistoryEntry :=
  h.foldl upsert_by_day []

/-- The history maintenance pass of `api_finalize` (src/ui/app.py lines
623-629) applied after today's entry has been appended: de-duplicate by
day, sort ascending by day (a stable sort, as Python's), keep the last 30. -/
def cap_history (h : List HistoryEntry) : List HistoryEntry :=
  let d := List.insertionSort (fun a b => a.day ≤ b.day) (dedup_by_day h)
  d.drop (d.length - 30)

/-! ## The rolling reflections log -/

/-- The preamble `_prepend_reflection` installs in an empty log
(src/ui/app.py line 165). -/
def defaultPreamble : List Char :=
  ("# Reflections (rolling)\n\nAppend newest entries at the top.\n\n---\n\n").toList

/-- The divider marker `"---\n\n"` searched for by `_prepend_reflection`. -/
def logMarker : List Char := ("---\n\n").toList

/-- Python `s.find(pat)` restricted to a found/not-found answer: the index
of the first occurrence of `pat` in `s`, if any. -/
def findSub (pat : List Char) : List Char → Option Nat
  | [] => if pat.isPrefixOf [] then some 0 else none
  | c :: t =>
    if pat.isPrefixOf (c :: t) then some 0
    else (findSub pat t).map (fun n => n + 1)

/-- `_prepend_reflection(ref_path, entry_md)` from src/ui/app.py lines
162-174, acting on the current log content: install the preamble if the
log is blank, then insert the stripped entry right after the first
`"---\n\n"` divider (left-stripping what follows), or prepend it to the
whole content when no divider exists. -/
def prependReflection (existing entry : List Char) : List Char :=
  let existing := if stripL existing = [] then defaultPreamble else existing
  match findSub logMarker existing with
  | some idx =>
    let head := existing.take (idx + logMarker.length)
    let tail := existing.drop (idx + logMarker.length)
    head ++ '\n' :: stripL entry ++ '\n' :: '\n' :: lstripL tail
  | none => stripL entry ++ '\n' :: '\n' :: existing

/-- The markdown block `entry_lines` rendered by `api_finalize`
(src/ui/app.py lines 636-675), joined with newlines. -/
def renderEntry (today now : String) (draft_mode : Mode) (rating : Rating)
    (done_items : List String) (items : List (String × Item))
    (reflection : String) (summary : String) : String :=
  let ratingU := pyUpper (ratingStr rating)
  let modeU := pyUpper (modeStr draft_mode)
  let base := ["## " ++ today, "- Time: " ++ now, "",
    "**Rating:** " ++ ratingU, "", "**Mode:** " ++ modeU, "", "**Done**"]
  let doneLines := if done_items.isEmpty then ["- (none)"]
    else done_items.map (fun it => "- " ++ it)
  let noteItems := items.filterMap (fun kv =>
    let comment := pyStrip kv.2.comment
    let label := kv.2.label.getD "(item)"
    if comment ≠ "" then some ("- " ++ label ++ ": " ++ comment) else none)
  let noteLines := if noteItems.isEmpty then ["- (none)"] else noteItems
  let reflLine := if stripL reflection.toList ≠ [] then pyStrip reflection
    else "- (none)"
  let lines := base ++ doneLines ++ ["", "**Notes**"] ++ noteLines ++
    ["", "**Reflection**", reflLine, "", "**Auto-summary**", "- " ++ summary]
  joinWith "\n" lines

/-! ## The finalization orchestrator -/

/-- The success branch of `api_finalize` (src/ui/app.py lines 581-690),
entered when `draft.get("day") == today`. -/
def finalize_success (today now : String) (draft : Draft) (state : State)
    (log : List Char) (planPrev : Option String) : FinalizeOut :=
    let draft_mode := normalizeMode draft.mode
    let items := draft.items
    let reflection := draft.reflection
    let done_items := (items.filter (fun kv => kv.2.done)).map
      (fun kv => kv.2.label.getD "(item)")
    let total_items := items.length
    let done_count := done_items.length
    let plan_changed := planChangedOf planPrev
    let rating := apply_recovery_rating draft_mode
      (compute_rating done_count total_items reflection false)
      done_count reflection
    let counts := finalize_counts draft_mode done_count reflection plan_changed
    let adv := advance_streak counts today state.streak state.lastStreakDate
    let streak := adv.1
    let summary := summarize_paragraph today rating done_items 0 reflection
    let newEntry : HistoryEntry :=
      ⟨today, rating, draft_mode, counts, done_count, total_items⟩
    let hist := cap_history (state.history ++ [newEntry])
    let entry := renderEntry today now draft_mode rating done_items items
      reflection summary
    let log' := prependReflection log entry.toList
    let state' : State :=
      ⟨streak, adv.2, some rating, some draft_mode, some summary, some today,
        hist⟩
    let draft' : Draft := ⟨some today, none, [], "", some now⟩
    ⟨⟨true, none, today, some rating, some streak⟩, state', draft', log'⟩

/-- `api_finalize` from src/ui/app.py lines 565-690 as a pure function of
the resolved `today`, the current timestamp `now`, and the contents of the
three durable resources plus the `plan_prev.md` snapshot.  It returns the
HTTP result and the final resource contents. -/
def api_finalize (today now : String) (draft : Draft) (state : State)
    (log : List Char) (planPrev : Option String) : FinalizeOut :=
  if draft.day ≠ some today then
    ⟨⟨false, some "no-draft-for-today", today, none, none⟩, state, draft, log⟩
  else finalize_success today now draft state log planPrev

/-! ## The atomic write primitive -/

/-- The two fallible steps inside the `try` block of `_write_json_atomic`
and `_write_text_atomic` (src/ui/app.py lines 70-119): the locked
write-and-fsync of the temporary file, and the atomic rename. -/
structure FaultSpec where
  failWrite : Bool
  failRename : Bool
deriving DecidableEq

/-- The errors a fallible step of an atomic write can raise. -/
inductive WriteError where
  | writeFailed
  | renameFailed
deriving DecidableEq

/-- The state of one target path: the target file's content (if it
exists) and the content of a leftover `.tmp_*` sibling (if one exists). -/
structure FileState where
  target : Option String
  temp : Option String
deriving DecidableEq

/-- Shared body of `_write_json_atomic` and `_write_text_atomic`
(src/ui/app.py lines 70-119): create a temporary file, write and fsync the
full serialized content under an exclusive lock, atomically rename it over
the target; on any failure inside the `try`, unlink the temporary file and
re-raise. -/
def write_atomic (fs : FileState) (content : String) (f : FaultSpec) :
    FileState × Except WriteError Unit :=
  let fs1 : FileState := { fs with temp := some "" }
  if f.failWrite then ({ fs1 with temp := none }, .error .writeFailed)
  else
    let fs2 : FileState := { fs1 with temp := some content }
    if f.failRename then ({ fs2 with temp := none }, .error .renameFailed)
    else ({ target := some content, temp := none }, .ok ())

/-- `_write_json_atomic(path, data)` with `data` already serialized by
`json.dumps(data, indent=2, ensure_ascii=False) + "\n"`. -/
def write_json_atomic (fs : FileState) (serialized : String) (f : FaultSpec) :
    FileState × Except WriteError Unit :=
  write_atomic fs serialized f

/-- `_write_text_atomic(path, content)`. -/
def write_text_atomic (fs : FileState) (content : String) (f : FaultSpec) :
    FileState × Except WriteError Unit :=
  write_atomic fs content f

/-! ## Derived notions used by the claims -/

/-- Numeric severity of a rating, used to compare ratings. -/
def ratingVal : Rating → Nat
  | .bad => 0
  | .fair => 1
  | .good => 2

/-- The history invariant of the spec: strictly ascending by day (hence
no duplicate day) and at most 30 entries. -/
def histInv (h : List HistoryEntry) : Prop :=
  List.Pairwise (fun a b => a.day < b.day) h ∧ h.length ≤ 30

/-! ## Helper lemmas -/

lemma api_finalize_noop (today now : String) (draft : Draft) (state : State)
    (log : List Char) (planPrev : Option String)
    (h : draft.day ≠ some today) :
    api_finalize today now draft state log planPrev =
      ⟨⟨false, some "no-draft-for-today", today, none, none⟩, state, draft,
        log⟩ := by
  simp [api_finalize, h]

lemma api_finalize_eq_success (today now : String) (draft : Draft)
    (state : State) (log : List Char) (planPrev : Option String)
    (h : draft.day = some today) :
    api_finalize today now draft state log planPrev =
      finalize_success today now draft state log planPrev := by
  simp [api_finalize, h]

lemma finalize_success_result (today now : String) (draft : Draft)
    (state : State) (log : List Char) (planPrev : Option String) :
    (finalize_success today now draft state log planPrev).result.ok = true ∧
    (finalize_success today now draft state log planPrev).result.reason =
      none :=
  ⟨rfl, rfl⟩

lemma finalize_success_draft (today now : String) (draft : Draft)
    (state : State) (log : List Char) (planPrev : Option String) :
    (finalize_success today now draft state log planPrev).draft =
      ⟨some today, none, [], "", some now⟩ :=
  rfl

lemma finalize_success_streak (today now : String) (draft : Draft)
    (state : State) (log : List Char) (planPrev : Option String) :
    (finalize_success today now draft state log planPrev).state.streak =
      (advance_streak
        (finalize_counts (normalizeMode draft.mode)
          ((draft.items.filter (fun kv => kv.2.done)).map
            (fun kv => kv.2.label.getD "(item)")).length
          draft.reflection (planChangedOf planPrev))
        today state.streak state.lastStreakDate).1 :=
  rfl

lemma finalize_success_lastStreakDate (today now : String) (draft : Draft)
    (state : State) (log : List Char) (planPrev : Option String) :
    (finalize_success today now draft state log planPrev).state.lastStreakDate
      = (advance_streak
        (finalize_counts (normalizeMode draft.mode)
          ((draft.items.filter (fun kv => kv.2.done)).map
            (fun kv => kv.2.label.getD "(item)")).length
          draft.reflection (planChangedOf planPrev))
        today state.streak state.lastStreakDate).2 :=
  rfl

lemma finalize_success_history (today now : String) (draft : Draft)
    (state : State) (log : List Char) (planPrev : Option String) :
    (finalize_success today now draft state log planPrev).state.history =
      cap_history (state.history ++
        [⟨today,
          apply_recovery_rating (normalizeMode draft.mode)
            (compute_rating
              ((draft.items.filter (fun kv => kv.2.done)).map
                (fun kv => kv.2.label.getD "(item)")).length
              draft.items.length draft.reflection false)
            ((draft.items.filter (fun kv => kv.2.done)).map
              (fun kv => kv.2.label.getD "(item)")).length draft.reflection,
          normalizeMode draft.mode,
          finalize_counts (normalizeMode draft.mode)
            ((draft.items.filter (fun kv => kv.2.done)).map
              (fun kv => kv.2.label.getD "(item)")).length
            draft.reflection (planChangedOf planPrev),
          ((draft.items.filter (fun kv => kv.2.done)).map
            (fun kv => kv.2.label.getD "(item)")).length,
          draft.items.length⟩]) :=
  rfl

lemma apply_recovery_commit (r : Rating) (dc : Nat) (refl : String) :
    apply_recovery_rating .commit r dc refl = r := by
  simp [apply_recovery_rating]

lemma finalize_counts_of_plan (m : Mode) (dc : Nat) (refl : String) :
    finalize_counts m dc refl true = true := by
  cases m <;> simp [finalize_counts, counts_for_streak]

lemma advance_streak_absorb (c₁ c₂ : Bool) (today : String) (s : Nat)
    (last : Option String) (h : c₂ = true → c₁ = true) :
    advance_streak c₂ today (advance_streak c₁ today s last).1
      (advance_streak c₁ today s last).2 = advance_streak c₁ today s last := by
  cases c₂ with
  | false => simp [advance_streak]
  | true =>
    have hc := h rfl
    subst hc
    by_cases hl : last = some today <;> simp [advance_streak, hl]

/-! ## Claim theorems -/

/-- C2: for every Draft whose day field differs from the resolved today,
finalize reports the no-draft-for-today outcome without mutating any
durable resource: State, Draft, and the reflections Log are all returned
unchanged. -/
theorem finalize_no_draft_frame (today now : String) (draft : Draft)
    (state : State) (log : List Char) (planPrev : Option String)
    (h : draft.day ≠ some today) :
    api_finalize today now draft state log planPrev =
      ⟨⟨false, some "no-draft-for-today", today, none, none⟩, state, draft,
        log⟩ :=
  api_finalize_noop today now draft state log planPrev h

/-- Witness for C2 at a concrete stale draft. -/
theorem finalize_no_draft_frame_witness :
    api_finalize "2026-01-02" "t" ⟨some "2026-01-01", none, [], "", none⟩
        ⟨0, none, none, none, none, none, []⟩ [] none =
      ⟨⟨false, some "no-draft-for-today", "2026-01-02", none, none⟩,
        ⟨0, none, none, none, none, none, []⟩,
        ⟨some "2026-01-01", none, [], "", none⟩, []⟩ :=
  finalize_no_draft_frame "2026-01-02" "t" ⟨some "2026-01-01", none, [], "", none⟩
    ⟨0, none, none, none, none, none, []⟩ [] none (by decide)

/-- C3: the rating function is total and deterministic — it returns exactly
one of good/fair/bad; it is good iff `doneCount ≥ max(1, totalItems / 2)`
or `doneCount ≥ 2` or (`anyTimeLogged` and `doneCount ≥ 1`); else fair iff
`doneCount ≥ 1` or the trimmed reflection length is ≥ 30; else bad; and
every input satisfying a good condition also satisfies a fair condition. -/
theorem compute_rating_total_correct (dc ti : Nat) (refl : String)
    (anyt : Bool) :
    (compute_rating dc ti refl anyt = .good ∨
      compute_rating dc ti refl anyt = .fair ∨
      compute_rating dc ti refl anyt = .bad)
    ∧ (compute_rating dc ti refl anyt = .good ↔
        (dc ≥ max 1 (ti / 2) ∨ dc ≥ 2 ∨ (anyt = true ∧ dc ≥ 1)))
    ∧ (compute_rating dc ti refl anyt = .fair ↔
        (¬(dc ≥ max 1 (ti / 2) ∨ dc ≥ 2 ∨ (anyt = true ∧ dc ≥ 1)) ∧
          (dc ≥ 1 ∨ strippedLen refl ≥ 30)))
    ∧ (compute_rating dc ti refl anyt = .bad ↔
        (¬(dc ≥ max 1 (ti / 2) ∨ dc ≥ 2 ∨ (anyt = true ∧ dc ≥ 1)) ∧
          ¬(dc ≥ 1 ∨ strippedLen refl ≥ 30)))
    ∧ ((dc ≥ max 1 (ti / 2) ∨ dc ≥ 2 ∨ (anyt = true ∧ dc ≥ 1)) →
        (dc ≥ 1 ∨ strippedLen refl ≥ 30)) := by
  refine ⟨?_, ?_, ?_, ?_, ?_⟩
  · unfold compute_rating; split_ifs <;> simp
  · unfold compute_rating; split_ifs <;> simp_all
  · unfold compute_rating; split_ifs <;> simp_all
  · unfold compute_rating; split_ifs <;> simp_all
  · rintro (h | h | ⟨-, h⟩)
    · have h1 : (1 : Nat) ≤ max 1 (ti / 2) := le_max_left _ _
      exact Or.inl (by omega)
    · exact Or.inl (by omega)
    · exact Or.inl h

/-- Witness for C3 at Scenario A's numbers (doneCount 1 of 2 items). -/
theorem compute_rating_total_correct_witness :
    (compute_rating 1 2 "" false = .good ∨
      compute_rating 1 2 "" false = .fair ∨
      compute_rating 1 2 "" false = .bad)
    ∧ (compute_rating 1 2 "" false = .good ↔
        (1 ≥ max 1 (2 / 2) ∨ 1 ≥ 2 ∨ (false = true ∧ 1 ≥ 1)))
    ∧ (compute_rating 1 2 "" false = .fair ↔
        (¬(1 ≥ max 1 (2 / 2) ∨ 1 ≥ 2 ∨ (false = true ∧ 1 ≥ 1)) ∧
          (1 ≥ 1 ∨ strippedLen "" ≥ 30)))
    ∧ (compute_rating 1 2 "" false = .bad ↔
        (¬(1 ≥ max 1 (2 / 2) ∨ 1 ≥ 2 ∨ (false = true ∧ 1 ≥ 1)) ∧
          ¬(1 ≥ 1 ∨ strippedLen "" ≥ 30)))
    ∧ ((1 ≥ max 1 (2 / 2) ∨ 1 ≥ 2 ∨ (false = true ∧ 1 ≥ 1)) →
        (1 ≥ 1 ∨ strippedLen "" ≥ 30)) :=
  compute_rating_total_correct 1 2 "" false

/-- C4: the streak advance is idempotent for a fixed day — with `counts`
true and `lastStreakDate` already today it changes nothing, running it
twice equals running it once, with `counts` false it changes nothing, and
the streak never decreases. -/
theorem advance_streak_idempotent (c : Bool) (today : String) (s : Nat)
    (last : Option String) :
    advance_streak true today s (some today) = (s, some today)
    ∧ advance_streak true today (advance_streak true today s last).1
        (advance_streak true today s last).2 =
        advance_streak true today s last
    ∧ advance_streak false today s last = (s, last)
    ∧ s ≤ (advance_streak c today s last).1 := by
  refine ⟨?_, ?_, ?_, ?_⟩
  · simp [advance_streak]
  · exact advance_streak_absorb true true today s last (fun _ => rfl)
  · simp [advance_streak]
  · unfold advance_streak
    split_ifs <;> omega

/-- C6: the Recovery override upgrades a Bad rating to Fair when
`doneCount ≥ 1` or the trimmed reflection length is ≥ 30; Recovery mode
never produces a lower rating than Commit mode on the same inputs; and in
Scenario C (doneCount 0, empty reflection, planChanged false, Recovery)
the rating stays Bad and counts-for-streak is false. -/
theorem recovery_override_correct (r : Rating) (dc ti : Nat)
    (refl : String) :
    (r = .bad → (dc ≥ 1 ∨ strippedLen refl ≥ 30) →
      apply_recovery_rating .recovery r dc refl = .fair)
    ∧ ratingVal (apply_recovery_rating .commit r dc refl) ≤
        ratingVal (apply_recovery_rating .recovery r dc refl)
    ∧ apply_recovery_rating .recovery (compute_rating 0 ti "" false) 0 ""
        = .bad
    ∧ finalize_counts .recovery 0 "" false = false := by
  have hbad : compute_rating 0 ti "" false = .bad := by
    unfold compute_rating
    have h1 : (1 : Nat) ≤ max 1 (ti / 2) := le_max_left _ _
    have h30 : strippedLen "" = 0 := rfl
    rw [if_neg (by omega), if_neg (by omega)]
  refine ⟨?_, ?_, ?_, ?_⟩
  · intro hr hq
    subst hr
    simp [apply_recovery_rating, hq]
  · rw [apply_recovery_commit]
    unfold apply_recovery_rating
    split_ifs with h
    · rw [h.2.1]; decide
    · exact le_refl _
  · rw [hbad]; decide
  · decide

/-- Witness for C6: the override fires on an explicit Bad rating with one
item done. -/
theorem recovery_override_correct_witness :
    apply_recovery_rating .recovery .bad 1 "" = .fair :=
  (recovery_override_correct .bad 1 0 "").1 (by decide) (by decide)

/-- C7 counterexample: with a previous-plan snapshot identical to the
current plan (both "x"), the code computes planChanged = true while the
claimed predicate ("exists, non-empty, and differs from the current plan")
is false. -/
theorem plan_changed_spec_cex :
    planChangedOf (some "x") = true ∧ specPlanChanged (some "x") "x" = false
    ∧ planChangedOf (some "x") ≠ specPlanChanged (some "x") "x" := by
  refine ⟨by decide, by decide, by decide⟩

/-- C7 as amended: during finalization, planChanged is true iff a
previous-plan snapshot exists and its trimmed content is non-empty; the
current plan document is not consulted. -/
theorem plan_changed_iff (planPrev : Option String) :
    planChangedOf planPrev = true ↔
      ∃ t, planPrev = some t ∧ pyStrip t ≠ "" := by
  cases planPrev <;> simp [planChangedOf]

/-- Witness for C7's amended theorem at a concrete snapshot. -/
theorem plan_changed_iff_witness :
    planChangedOf (some "x") = true ↔
      ∃ t, some "x" = some t ∧ pyStrip t ≠ "" :=
  plan_changed_iff (some "x")

/-- C9: for every atomic write (JSON or text), if any fallible step fails
then the temporary file is removed, the prior target content is untouched,
and the error is surfaced to the caller (an error is returned exactly when
a step failed). -/
theorem write_atomic_error_frame (fs : FileState) (content : String)
    (f : FaultSpec) :
    (∀ e : WriteError, (write_atomic fs content f).2 = .error e →
      (write_atomic fs content f).1.target = fs.target ∧
      (write_atomic fs content f).1.temp = none)
    ∧ ((∃ e, (write_atomic fs content f).2 = .error e) ↔
        (f.failWrite = true ∨ f.failRename = true))
    ∧ write_json_atomic fs content f = write_atomic fs content f
    ∧ write_text_atomic fs content f = write_atomic fs content f := by
  refine ⟨?_, ?_, rfl, rfl⟩
  · intro e
    unfold write_atomic
    split_ifs <;> simp
  · unfold write_atomic
    split_ifs with h1 h2 <;> simp_all

/-- Witness for C9: a failing rename leaves the prior target untouched and
no temporary file behind. -/
theorem write_atomic_error_frame_witness :
    (write_atomic ⟨some "old", none⟩ "new" ⟨false, true⟩).1.target =
        some "old"
    ∧ (write_atomic ⟨some "old", none⟩ "new" ⟨false, true⟩).1.temp = none :=
  (write_atomic_error_frame ⟨some "old", none⟩ "new" ⟨false, true⟩).1
    .renameFailed rfl

/-- C10: the rating produced by finalize is independent of the draft's
mode — the Recovery override's guard (base rating Bad together with
doneCount ≥ 1 or trimmed reflection length ≥ 30) is unsatisfiable, so the
override never changes the computed rating. -/
theorem finalize_rating_mode_independent (m : Mode) (dc ti : Nat)
    (refl : String) (anyt : Bool) :
    apply_recovery_rating m (compute_rating dc ti refl false) dc refl =
      compute_rating dc ti refl false
    ∧ ¬(compute_rating dc ti refl anyt = .bad ∧
        (dc ≥ 1 ∨ strippedLen refl ≥ 30)) := by
  have key : ∀ b : Bool, ¬(compute_rating dc ti refl b = .bad ∧
      (dc ≥ 1 ∨ strippedLen refl ≥ 30)) := by
    intro b
    rintro ⟨hbad, hq⟩
    unfold compute_rating at hbad
    split_ifs at hbad
  constructor
  · unfold apply_recovery_rating
    split_ifs with h
    · exact absurd ⟨h.2.1, h.2.2⟩ (key false)
    · rfl
  · exact key anyt

/-- Witness for C10 at a concrete Recovery-mode input. -/
theorem finalize_rating_mode_independent_witness :
    apply_recovery_rating .recovery (compute_rating 1 2 "" false) 1 "" =
      compute_rating 1 2 "" false
    ∧ ¬(compute_rating 1 2 "" false = .bad ∧
        (1 ≥ 1 ∨ strippedLen "" ≥ 30)) :=
  finalize_rating_mode_independent .recovery 1 2 "" false

/-! ## History invariant (C5) -/

instance : IsTotal HistoryEntry (fun a b => a.day ≤ b.day) :=
  ⟨fun a b => le_total a.day b.day⟩

instance : IsTrans HistoryEntry (fun a b => a.day ≤ b.day) :=
  ⟨fun _ _ _ hab hbc => le_trans hab hbc⟩

lemma upsert_by_day_days_nodup (acc : List HistoryEntry) (e : HistoryEntry)
    (h : (acc.map (fun x => x.day)).Nodup) :
    ((upsert_by_day acc e).map (fun x => x.day)).Nodup := by
  unfold upsert_by_day
  split_ifs with hany
  · have hmap : (acc.map (fun x => if x.day = e.day then e else x)).map
        (fun x => x.day) = acc.map (fun x => x.day) := by
      rw [List.map_map]
      apply List.map_congr_left
      intro x _
      by_cases hd : x.day = e.day <;> simp [hd]
    rw [hmap]
    exact h
  · rw [List.map_append]
    rw [List.nodup_append]
    refine ⟨h, by simp, ?_⟩
    intro d hd hde
    simp at hde
    subst hde
    simp at hd
    obtain ⟨x, hx, hxd⟩ := hd
    exact hany (List.any_eq_true.mpr ⟨x, hx, by simp [hxd]⟩)

lemma dedup_by_day_days_nodup (h : List HistoryEntry) :
    ((dedup_by_day h).map (fun x => x.day)).Nodup := by
  unfold dedup_by_day
  suffices key : ∀ acc : List HistoryEntry, (acc.map (fun x => x.day)).Nodup →
      ((h.foldl upsert_by_day acc).map (fun x => x.day)).Nodup by
    exact key [] (by simp)
  induction h with
  | nil => intro acc ha; simpa using ha
  | cons e t ih =>
    intro acc ha
    rw [List.foldl_cons]
    exact ih _ (upsert_by_day_days_nodup acc e ha)

lemma cap_history_inv (h : List HistoryEntry) : histInv (cap_history h) := by
  unfold cap_history histInv
  constructor
  · have hsorted : List.Sorted (fun a b : HistoryEntry => a.day ≤ b.day)
        (List.insertionSort (fun a b => a.day ≤ b.day) (dedup_by_day h)) :=
      List.sorted_insertionSort _ _
    have hperm : (List.insertionSort (fun a b : HistoryEntry => a.day ≤ b.day)
        (dedup_by_day h)).Perm (dedup_by_day h) :=
      List.perm_insertionSort _ _
    have hnd : ((List.insertionSort (fun a b : HistoryEntry => a.day ≤ b.day)
        (dedup_by_day h)).map (fun x => x.day)).Nodup :=
      ((hperm.map (fun x => x.day)).nodup_iff).mpr (dedup_by_day_days_nodup h)
    have hne : List.Pairwise (fun a b : HistoryEntry => a.day ≠ b.day)
        (List.insertionSort (fun a b => a.day ≤ b.day) (dedup_by_day h)) :=
      List.pairwise_map.mp hnd
    have hlt := (hsorted.and hne).imp
      (fun hab => lt_of_le_of_ne hab.1 hab.2)
    exact hlt.sublist (List.drop_sublist _ _)
  · rw [List.length_drop]
    omega

/-- C5: after any finalize invocation, a successful call leaves
State.history sorted strictly ascending by day (hence duplicate-free) with
length at most 30, and any call preserves that invariant — so it holds
after any sequence of finalize invocations started from an empty history. -/
theorem finalize_history_invariant (today now : String) (draft : Draft)
    (state : State) (log : List Char) (planPrev : Option String) :
    ((api_finalize today now draft state log planPrev).result.ok = true →
      histInv (api_finalize today now draft state log planPrev).state.history)
    ∧ (histInv state.history →
      histInv (api_finalize today now draft state log planPrev).state.history)
    := by
  by_cases h : draft.day = some today
  · rw [api_finalize_eq_success today now draft state log planPrev h,
      finalize_success_history]
    exact ⟨fun _ => cap_history_inv _, fun _ => cap_history_inv _⟩
  · rw [api_finalize_noop today now draft state log planPrev h]
    exact ⟨fun hok => by simp at hok, fun hi => hi⟩

/-- Witness for C5: a successful finalize starting from an empty state
establishes the invariant. -/
theorem finalize_history_invariant_witness :
    histInv (api_finalize "2026-01-02" "t"
      ⟨some "2026-01-02", none, [], "", none⟩
      ⟨0, none, none, none, none, none, []⟩ [] none).state.history :=
  (finalize_history_invariant "2026-01-02" "t"
    ⟨some "2026-01-02", none, [], "", none⟩
    ⟨0, none, none, none, none, none, []⟩ [] none).1 (by decide)

/-! ## Double finalize (C1) -/

/-- A concrete draft for 2026-01-02 with one completed item. -/
def c1Draft : Draft :=
  ⟨some "2026-01-02", some "commit",
    [("line-0", ⟨some "Task A", true, "c"⟩)], "", some "t0"⟩

/-- A concrete empty starting state. -/
def c1State : State := ⟨0, none, none, none, none, none, []⟩

/-- The first finalize call of the double-invocation scenario. -/
def c1Out1 : FinalizeOut := api_finalize "2026-01-02" "t1" c1Draft c1State [] none

/-- The second finalize call, immediately after the first cleared the
draft. -/
def c1Out2 : FinalizeOut :=
  api_finalize "2026-01-02" "t2" c1Out1.draft c1Out1.state c1Out1.log none

/-- C1 counterexample: the first call succeeds and clears the Draft, but
because the cleared Draft is stamped with today's date the second call
does not return the no-draft-for-today outcome — it returns ok and
rewrites State, contradicting the claim. -/
theorem finalize_twice_second_call_succeeds_cex :
    c1Out1.result.ok = true
    ∧ c1Out2.result.ok = true
    ∧ c1Out2.result.reason ≠ some "no-draft-for-today"
    ∧ c1Out2.state ≠ c1Out1.state := by
  refine ⟨by decide, by decide, by decide, by decide⟩

/-- C1 as amended: when finalize is called twice in immediate succession
for the same day and the first call succeeds (clearing the Draft to an
empty record stamped with today's date), the second call does not take the
no-draft-for-today path: it re-finalizes the now-empty draft and returns
ok with no reason, and while State is generally rewritten, the streak is
not double-incremented — it is exactly the streak after the first call. -/
theorem finalize_twice_refinalizes (today now now2 : String) (draft : Draft)
    (state : State) (log : List Char) (planPrev : Option String)
    (h : (api_finalize today now draft state log planPrev).result.ok = true) :
    (api_finalize today now2
        (api_finalize today now draft state log planPrev).draft
        (api_finalize today now draft state log planPrev).state
        (api_finalize today now draft state log planPrev).log
        planPrev).result.ok = true
    ∧ (api_finalize today now2
        (api_finalize today now draft state log planPrev).draft
        (api_finalize today now draft state log planPrev).state
        (api_finalize today now draft state log planPrev).log
        planPrev).result.reason = none
    ∧ (api_finalize today now2
        (api_finalize today now draft state log planPrev).draft
        (api_finalize today now draft state log planPrev).state
        (api_finalize today now draft state log planPrev).log
        planPrev).state.streak =
      (api_finalize today now draft state log planPrev).state.streak := by
  have hd : draft.day = some today := by
    by_contra hne
    rw [api_finalize_noop today now draft state log planPrev hne] at h
    simp at h
  rw [api_finalize_eq_success today now draft state log planPrev hd]
  rw [finalize_success_draft]
  have hd2 : (⟨some today, none, [], "", some now⟩ : Draft).day = some today :=
    rfl
  rw [api_finalize_eq_success today now2 _ _ _ planPrev hd2]
  refine ⟨(finalize_success_result _ _ _ _ _ _).1,
    (finalize_success_result _ _ _ _ _ _).2, ?_⟩
  rw [finalize_success_streak today now2 ⟨some today, none, [], "", some now⟩,
    finalize_success_streak today now draft state log planPrev,
    finalize_success_lastStreakDate today now draft state log planPrev]
  have hc2 : finalize_counts
      (normalizeMode (⟨some today, none, [], "", some now⟩ : Draft).mode)
      (((⟨some today, none, [], "", some now⟩ : Draft).items.filter
        (fun kv => kv.2.done)).map (fun kv => kv.2.label.getD "(item)")).length
      (⟨some today, none, [], "", some now⟩ : Draft).reflection
      (planChangedOf planPrev) = planChangedOf planPrev := by
    cases hpc : planChangedOf planPrev <;>
      simp [finalize_counts, counts_for_streak, normalizeMode, strippedLen,
        stripL, lstripL, rstripL, pyStrip]
  rw [hc2]
  have habs := advance_streak_absorb
    (finalize_counts (normalizeMode draft.mode)
      ((draft.items.filter (fun kv => kv.2.done)).map
        (fun kv => kv.2.label.getD "(item)")).length
      draft.reflection (planChangedOf planPrev))
    (planChangedOf planPrev) today state.streak state.lastStreakDate
    (fun hpc => by rw [hpc]; exact finalize_counts_of_plan _ _ _)
  rw [habs]

/-- Witness for C1's amended theorem at the concrete double-invocation
scenario. -/
theorem finalize_twice_refinalizes_witness :
    (api_finalize "2026-01-02" "t2"
        (api_finalize "2026-01-02" "t1" c1Draft c1State [] none).draft
        (api_finalize "2026-01-02" "t1" c1Draft c1State [] none).state
        (api_finalize "2026-01-02" "t1" c1Draft c1State [] none).log
        none).result.ok = true
    ∧ (api_finalize "2026-01-02" "t2"
        (api_finalize "2026-01-02" "t1" c1Draft c1State [] none).draft
        (api_finalize "2026-01-02" "t1" c1Draft c1State [] none).state
        (api_finalize "2026-01-02" "t1" c1Draft c1State [] none).log
        none).result.reason = none
    ∧ (api_finalize "2026-01-02" "t2"
        (api_finalize "2026-01-02" "t1" c1Draft c1State [] none).draft
        (api_finalize "2026-01-02" "t1" c1Draft c1State [] none).state
        (api_finalize "2026-01-02" "t1" c1Draft c1State [] none).log
        none).state.streak =
      (api_finalize "2026-01-02" "t1" c1Draft c1State [] none).state.streak :=
  finalize_twice_refinalizes "2026-01-02" "t1" "t2" c1Draft c1State [] none
    (by decide)

/-! ## Reflections log (C8) -/

lemma findSub_nil_pat (l : List Char) : findSub [] l = some 0 := by
  cases l <;> simp [findSub, List.isPrefixOf]

lemma prefix_of_append_of_le (pat x y : List Char)
    (hlen : pat.length ≤ x.length) (hp : pat <+: x ++ y) : pat <+: x := by
  rw [List.prefix_iff_eq_take] at hp ⊢
  rw [List.take_append_eq_append_take] at hp
  have h0 : pat.length - x.length = 0 := by omega
  rw [h0] at hp
  simpa using hp

lemma findSub_append (pat P : List Char) (k : Nat) (body : List Char)
    (h : findSub pat P = some k) (hlen : k + pat.length ≤ P.length) :
    findSub pat (P ++ body) = some k := by
  induction P generalizing k with
  | nil =>
    by_cases hp : pat.isPrefixOf ([] : List Char)
    · have hpat : pat = [] := by
        have := List.isPrefixOf_iff_prefix.mp hp
        simpa using this
      simp [findSub, hp] at h
      subst hpat
      rw [findSub_nil_pat]
      exact congrArg some h
    · simp [findSub, hp] at h
  | cons c t ih =>
    rw [List.cons_append]
    by_cases hp : pat.isPrefixOf (c :: t)
    · have hk : k = 0 := by
        have h' := h
        simp [findSub, hp] at h'
        omega
      subst hk
      have hpre : pat <+: c :: (t ++ body) := by
        rw [← List.cons_append]
        exact (List.isPrefixOf_iff_prefix.mp hp).trans
          (List.prefix_append _ _)
      simp [findSub, List.isPrefixOf_iff_prefix.mpr hpre]
    · have h' : (findSub pat t).map (fun n => n + 1) = some k := by
        simpa [findSub, hp] using h
      obtain ⟨k', hk', hkk⟩ := Option.map_eq_some'.mp h'
      have hlen' : k' + pat.length ≤ t.length := by
        simp at hlen
        omega
      have hnp : ¬ pat.isPrefixOf (c :: (t ++ body)) := by
        intro hcon
        have hc : pat <+: (c :: t) ++ body := by
          rw [List.cons_append]
          exact List.isPrefixOf_iff_prefix.mp hcon
        have hct : pat <+: c :: t :=
          prefix_of_append_of_le pat (c :: t) body (by simp; omega) hc
        exact hp (List.isPrefixOf_iff_prefix.mpr hct)
      have hstep : findSub pat (c :: (t ++ body)) =
          (findSub pat (t ++ body)).map (fun n => n + 1) := by
        simp [findSub, hnp]
      rw [hstep, ih k' hk' hlen']
      simp [hkk]


lemma stripL_eq_nil_iff (l : List Char) :
    stripL l = [] ↔ ∀ c ∈ l, c.isWhitespace = true := by
  unfold stripL rstripL lstripL
  constructor
  · intro h c hc
    have hdrop : l.dropWhile Char.isWhitespace = [] ∨
        ∀ a ∈ (l.dropWhile Char.isWhitespace).reverse, a.isWhitespace = true
        := by
      right
      intro a ha
      have h' : ((l.dropWhile Char.isWhitespace).reverse.dropWhile
          Char.isWhitespace) = [] := by
        have := congrArg List.reverse h
        simpa using this
      exact List.dropWhile_eq_nil_iff.mp h' a ha
    have hall : ∀ a ∈ l.dropWhile Char.isWhitespace, a.isWhitespace = true
        := by
      rcases hdrop with h0 | h1
      · intro a ha; rw [h0] at ha; simp at ha
      · intro a ha; exact h1 a (by simpa using ha)
    have hsplit := List.takeWhile_append_dropWhile Char.isWhitespace l
    rw [← hsplit] at hc
    rcases List.mem_append.mp hc with htk | hdr
    · exact List.mem_takeWhile_imp htk
    · exact hall c hdr
  · intro h
    have hdrop : l.dropWhile Char.isWhitespace = [] :=
      List.dropWhile_eq_nil_iff.mpr (fun a ha => h a ha)
    rw [hdrop]
    simp

lemma stripL_preamble_body_ne (body : List Char) :
    stripL (defaultPreamble ++ body) ≠ [] := by
  intro h
  have hmem : ('#' : Char) ∈ defaultPreamble ++ body := by
    apply List.mem_append_left
    decide
  have := (stripL_eq_nil_iff _).mp h '#' hmem
  simp at this

lemma findSub_preamble (body : List Char) :
    findSub logMarker (defaultPreamble ++ body) = some 60 :=
  findSub_append logMarker defaultPreamble 60 body (by decide) (by decide)

lemma prepend_on_preamble (body e : List Char) :
    prependReflection (defaultPreamble ++ body) e =
      defaultPreamble ++ '\n' :: stripL e ++ '\n' :: '\n' :: lstripL body := by
  unfold prependReflection
  rw [if_neg (stripL_preamble_body_ne body)]
  simp only [findSub_preamble body]
  have h1 : (defaultPreamble ++ body).take (60 + logMarker.length) =
      defaultPreamble :=
    List.take_left' (by decide)
  have h2 : (defaultPreamble ++ body).drop (60 + logMarker.length) = body :=
    List.drop_left' (by decide)
  rw [h1, h2]

lemma dropWhile_head_false (p : Char → Bool) (l : List Char) (c : Char)
    (r : List Char) (h : l.dropWhile p = c :: r) : p c = false := by
  induction l with
  | nil => simp at h
  | cons a t ih =>
    rw [List.dropWhile_cons] at h
    by_cases hp : p a
    · rw [if_pos hp] at h
      exact ih h
    · rw [if_neg hp] at h
      have hac : a = c := (List.cons.injEq _ _ _ _ ▸ h).1
      rw [← hac]
      simpa using hp

lemma rstripL_prefix (l : List Char) : rstripL l <+: l := by
  unfold rstripL
  have hsuf : l.reverse.dropWhile Char.isWhitespace <:+ l.reverse := by
    induction l.reverse with
    | nil => simp
    | cons a t ih =>
      rw [List.dropWhile_cons]
      by_cases hp : a.isWhitespace
      · rw [if_pos hp]
        exact ih.trans (List.suffix_cons a t)
      · rw [if_neg hp]

  have := List.reverse_prefix.mpr hsuf
  simpa using this

lemma stripL_head_not_ws (l : List Char) (c : Char) (r : List Char)
    (h : stripL l = c :: r) : c.isWhitespace = false := by
  have hpre : stripL l <+: lstripL l := rstripL_prefix (lstripL l)
  rw [h] at hpre
  obtain ⟨t, ht⟩ := hpre
  have hl : lstripL l = c :: (r ++ t) := by
    rw [← ht]
    simp
  exact dropWhile_head_false Char.isWhitespace l c (r ++ t) hl

lemma lstripL_entry (e x : List Char) (h : stripL e ≠ []) :
    lstripL ('\n' :: (stripL e ++ x)) = stripL e ++ x := by
  obtain ⟨c, r, hcr⟩ : ∃ c r, stripL e = c :: r := by
    cases hse : stripL e with
    | nil => exact absurd hse h
    | cons c r => exact ⟨c, r, rfl⟩
  have hc := stripL_head_not_ws e c r hcr
  rw [hcr]
  unfold lstripL
  rw [List.dropWhile_cons, if_pos (by decide), List.cons_append,
    List.dropWhile_cons, if_neg (by simp [hc])]

/-- C8: prepending an entry to a log of the form preamble-plus-body
inserts the stripped new entry immediately after the preamble's divider
and keeps the left-stripped old body — which holds every previously
written entry verbatim — as an unchanged suffix; consequently, after a
second prepend the first entry's text is still present, unchanged, in
front of the older content. -/
theorem prepend_reflection_preserves (body e₁ e₂ : List Char) :
    prependReflection (defaultPreamble ++ body) e₁ =
        defaultPreamble ++ '\n' :: stripL e₁ ++ '\n' :: '\n' :: lstripL body
    ∧ List.IsSuffix (lstripL body)
        (prependReflection (defaultPreamble ++ body) e₁)
    ∧ (stripL e₁ ≠ [] →
        prependReflection (prependReflection (defaultPreamble ++ body) e₁) e₂
          = defaultPreamble ++ '\n' :: stripL e₂ ++ '\n' :: '\n' ::
              (stripL e₁ ++ '\n' :: '\n' :: lstripL body)) := by
  refine ⟨prepend_on_preamble body e₁, ?_, ?_⟩
  · rw [prepend_on_preamble body e₁]
    exact ⟨defaultPreamble ++ '\n' :: stripL e₁ ++ ['\n', '\n'], by simp⟩
  · intro h
    rw [prepend_on_preamble body e₁]
    have hshape : defaultPreamble ++ '\n' :: stripL e₁ ++ '\n' :: '\n' ::
        lstripL body =
        defaultPreamble ++ ('\n' :: (stripL e₁ ++ '\n' :: '\n' ::
          lstripL body)) := by simp
    rw [hshape, prepend_on_preamble _ e₂,
      lstripL_entry e₁ ('\n' :: '\n' :: lstripL body) h]

/-- Witness for C8: two concrete markdown entries prepended to the fresh
preamble stack newest-first with the first entry preserved. -/
theorem prepend_reflection_preserves_witness :
    prependReflection
        (prependReflection (defaultPreamble ++ []) ("## a").toList)
        ("## b").toList
      = defaultPreamble ++ '\n' :: stripL ("## b").toList ++ '\n' :: '\n' ::
          (stripL ("## a").toList ++ '\n' :: '\n' :: lstripL []) :=
  (prepend_reflection_preserves [] ("## a").toList ("## b").toList).2.2
    (by decide)

end MoltScheduler
